import Mathlib

/-!
Verification of the ChakLoad-CLI load-testing core against its
natural-language specification.  The definitions below are a shallow
embedding of `src/loadtester/frameworks/enhanced_runner.py`,
`src/loadtester/frameworks/simple_runner.py`,
`src/loadtester/frameworks/base.py` and the run-gate of
`src/loadtester/cli.py`.  Machine floats are modelled as rationals,
Python ints as `ℕ`/`ℤ`, Python dicts as association lists, and the
ambient wall clock as explicit rational-valued parameters.
-/

namespace ChakLoad

/-- Python truthiness of an optional error value: `r.get('error')` is falsy
exactly when the key is absent (`none`) or holds the empty string. -/
def errTruthy : Option String → Bool
| none => false
| some s => !(s == "")

/-- One per-request outcome record as built by `make_requests_for_user`
in `enhanced_runner.py` (lines 92-99 and 108-115) and by `make_request`
in `simple_runner.py`: response time in milliseconds, status code with
the `0` sentinel for transport failures, body size in bytes, optional
error text.  Timestamp and user index are irrelevant to aggregation and
omitted. -/
structure RespRecord where
  response_time : ℚ
  status_code : ℕ
  size : ℕ
  error : Option String
deriving DecidableEq

/-- Python `min(l)` over a nonempty list, `0` on the empty list (the
sources only call it under a nonempty guard). -/
def listMin : List ℚ → ℚ
| [] => 0
| x :: xs => xs.foldl min x

/-- Python `max(l)` over a nonempty list, `0` on the empty list. -/
def listMax : List ℚ → ℚ
| [] => 0
| x :: xs => xs.foldl max x

/-- In-place ascending `list.sort()` of the Python sources, modelled as
insertion sort with `≤`. -/
def sortAsc (l : List ℚ) : List ℚ := List.insertionSort (· ≤ ·) l

/-- The `response_times` comprehension shared by both runners:
`[r['response_time'] for r in responses if r['response_time'] > 0]` —
zero-time entries (transport failures) are excluded. -/
def posTimes (rs : List RespRecord) : List ℚ :=
  (rs.filter (fun r => decide (0 < r.response_time))).map
    (·.response_time)

/-- Mirror of the `TestResults` dataclass of `base.py`, with rationals
for the float fields and an association list for the `errors` dict
(`None` modelled as the empty list). -/
structure TestResults where
  total_requests : ℕ := 0
  successful_requests : ℕ := 0
  failed_requests : ℕ := 0
  requests_per_second : ℚ := 0
  avg_response_time : ℚ := 0
  median_response_time : ℚ := 0
  p95_response_time : ℚ := 0
  p99_response_time : ℚ := 0
  min_response_time : ℚ := 0
  max_response_time : ℚ := 0
  error_rate : ℚ := 0
  errors : List (String × ℕ) := []
  data_sent_mb : ℚ := 0
  data_received_mb : ℚ := 0
  duration : ℤ := 0
deriving DecidableEq

/-- The Python idiom `counts[key] = counts.get(key, 0) + 1` on a dict:
bump the count stored under `k`, appending the key on first occurrence
(insertion order, as in a Python dict). -/
def bumpCount : List (String × ℕ) → String → List (String × ℕ)
| [], k => [(k, 1)]
| (k0, v) :: rest, k =>
  if k0 = k then (k0, v + 1) :: rest else (k0, v) :: bumpCount rest k

/-- Reading a count back out of the error-category dict
(`counts.get(key, 0)`): `0` when the label is absent. -/
def lookupCount : List (String × ℕ) → String → ℕ
| [], _ => 0
| (k0, v) :: rest, k => if k0 = k then v else lookupCount rest k

/-- Sum of all occurrence counts of the error-category dict. -/
def sumCounts (m : List (String × ℕ)) : ℕ := (m.map (·.2)).sum

/-- The error-category label `EnhancedHttpRunner.run_test` (lines
204-212) assigns to a record, if any.  When `r.get('error')` is truthy
the source computes `r['error'].__class__.__name__`; the stored error is
always `str(e)`, and the `__class__.__name__` of a Python `str` value is
the constant string `"str"` (the `str(r['error'])` fallback is dead code
because every Python value has `__class__`, so `hasattr` is always
true).  Otherwise a status code `>= 400` is stringified. -/
def labelOfEnhanced (r : RespRecord) : Option String :=
  if errTruthy r.error then some "str"
  else if 400 ≤ r.status_code then some (toString r.status_code)
  else none

/-- The corresponding label in `SimpleHttpRunner.run_test` (lines
150-158): the error test is key presence (`'error' in r`) rather than
truthiness, and `type(r['error']).__name__` of a stored `str` is again
the constant `"str"`. -/
def labelOfSimple (r : RespRecord) : Option String :=
  if r.error.isSome then some "str"
  else if 400 ≤ r.status_code then some (toString r.status_code)
  else none

/-- One iteration of the error-counting loops: bump the record's label
when it has one, leave the dict unchanged otherwise. -/
def countStep (label : RespRecord → Option String)
    (m : List (String × ℕ)) (r : RespRecord) : List (String × ℕ) :=
  match label r with
  | some k => bumpCount m k
  | none => m

/-- The `# Count error types` loop of `EnhancedHttpRunner.run_test`:
fold every record into the error-category dict under its label. -/
def errorCountsEnhanced (rs : List RespRecord) : List (String × ℕ) :=
  rs.foldl (countStep labelOfEnhanced) []

/-- The error-counting loop of `SimpleHttpRunner.run_test`. -/
def errorCountsSimple (rs : List RespRecord) : List (String × ℕ) :=
  rs.foldl (countStep labelOfSimple) []

/-- Shallow embedding of the aggregation phase of
`EnhancedHttpRunner.run_test` (lines 156-214).  `elapsed` stands for the
ambient `time.time() - start_time` read at line 195 and `cfgDuration`
for `config.duration` assigned at line 35.  Python `int(0.95 * n)` /
`int(0.99 * n)` are modelled as the exact floors `95 * n / 100` and
`99 * n / 100` in `ℕ`. -/
def aggregateEnhanced (rs : List RespRecord) (elapsed : ℚ)
    (cfgDuration : ℤ) : TestResults :=
  if rs.isEmpty then { duration := cfgDuration } else
  let total := rs.length
  let succ := (rs.filter (fun r =>
    decide (r.status_code ≠ 0) && decide (0 < r.status_code) &&
    decide (r.status_code < 400) && !(errTruthy r.error))).length
  let failed := (rs.filter (fun r =>
    decide (r.status_code ≠ 0) && decide (400 ≤ r.status_code))).length
  let errs := (rs.filter (fun r => errTruthy r.error)).length
  let errorRate : ℚ :=
    if 0 < total then (((failed : ℚ) + (errs : ℚ)) / (total : ℚ)) * 100 else 0
  let rts := posTimes rs
  let srt := sortAsc rts
  let n := srt.length
  let haveTimes := !rts.isEmpty
  let p95idx := 95 * n / 100
  let p99idx := 99 * n / 100
  { total_requests := total
    successful_requests := succ
    failed_requests := failed
    error_rate := errorRate
    avg_response_time := if haveTimes then srt.sum / (n : ℚ) else 0
    median_response_time := if haveTimes then srt.getD (n / 2) 0 else 0
    min_response_time := if haveTimes then listMin srt else 0
    max_response_time := if haveTimes then listMax srt else 0
    p95_response_time :=
      if haveTimes && decide (20 ≤ n) then
        (if p95idx < n then srt.getD p95idx 0 else 0) else 0
    p99_response_time :=
      if haveTimes && decide (20 ≤ n) then
        (if p99idx < n then srt.getD p99idx 0 else 0) else 0
    requests_per_second :=
      if haveTimes then
        (if 0 < elapsed then (total : ℚ) / elapsed else 0) else 0
    data_sent_mb := 0
    data_received_mb := (((rs.map (·.size)).sum : ℕ) : ℚ) / (1024 * 1024)
    errors := errorCountsEnhanced rs
    duration := cfgDuration }

/-- Shallow embedding of the aggregation phase of
`SimpleHttpRunner.run_test` (lines 108-160).  Differences from the
enhanced runner, straight from the source: `successful` has no error
check and no explicit lower bound (truthiness of the status code only),
the error bucket tests key presence, and the percentile computation has
NO minimum-sample guard (any nonempty positive-time list yields
percentiles). -/
def aggregateSimple (rs : List RespRecord) (elapsed : ℚ)
    (cfgDuration : ℤ) : TestResults :=
  if rs.isEmpty then { duration := cfgDuration } else
  let total := rs.length
  let succ := (rs.filter (fun r =>
    decide (r.status_code ≠ 0) && decide (r.status_code < 400))).length
  let failed := (rs.filter (fun r =>
    decide (r.status_code ≠ 0) && decide (400 ≤ r.status_code))).length
  let errs := (rs.filter (fun r => r.error.isSome)).length
  let errorRate : ℚ :=
    if 0 < total then (((failed : ℚ) + (errs : ℚ)) / (total : ℚ)) * 100 else 0
  let rts := posTimes rs
  let srt := sortAsc rts
  let n := srt.length
  let haveTimes := !rts.isEmpty
  let p95idx := 95 * n / 100
  let p99idx := 99 * n / 100
  { total_requests := total
    successful_requests := succ
    failed_requests := failed
    error_rate := errorRate
    avg_response_time := if haveTimes then srt.sum / (n : ℚ) else 0
    median_response_time := if haveTimes then srt.getD (n / 2) 0 else 0
    min_response_time := if haveTimes then listMin srt else 0
    max_response_time := if haveTimes then listMax srt else 0
    p95_response_time :=
      if haveTimes then
        (if p95idx < n then srt.getD p95idx 0 else 0) else 0
    p99_response_time :=
      if haveTimes then
        (if p99idx < n then srt.getD p99idx 0 else 0) else 0
    requests_per_second :=
      if haveTimes then
        (if 0 < elapsed then (total : ℚ) / elapsed else 0) else 0
    data_sent_mb := 0
    data_received_mb := (((rs.map (·.size)).sum : ℕ) : ℚ) / (1024 * 1024)
    errors := errorCountsSimple rs
    duration := cfgDuration }

/-- JSON request bodies, only as far as the runner distinguishes them:
the api-endpoint path sends the payload taken from the custom
parameters (default an empty JSON object), and the telegram-webhook
path sends the synthetic update built at lines 279-299 from three
random identifiers and the current epoch second, with the fixed sample
text. -/
inductive Payload where
| emptyObj : Payload
| custom (tag : String) : Payload
| webhookUpdate (update_id from_id chat_id date : ℕ) (text : String) : Payload
deriving DecidableEq

/-- The open custom-parameter mapping of `TestConfig`, restricted to the
two keys the runners read (`method` and `payload`). -/
structure CustomParams where
  method : Option String := none
  payload : Option Payload := none
deriving DecidableEq

/-- Mirror of the `TestConfig` dataclass of `base.py`.  Integers are
`ℤ` so that out-of-range values (non-positive users or duration, which
nothing in the dataclass forbids) are representable. -/
structure TestConfig where
  target_url : String := ""
  users : ℤ := 100
  duration : ℤ := 60
  rampup : ℤ := 10
  test_type : String := "web-site"
  framework : String := "locust"
  custom_params : Option CustomParams := none
deriving DecidableEq

/-- One HTTP call a session can be asked to perform (the four verbs the
runners use, with their JSON body where one is sent). -/
inductive HttpCall where
| get (url : String)
| post (url : String) (body : Payload)
| put (url : String) (body : Payload)
| delete (url : String)
deriving DecidableEq

/-- An HTTP response as the runners consume it: status code plus raw
body bytes. -/
structure HttpResponse where
  status_code : ℕ
  content : List ℕ
deriving DecidableEq

/-- Result of one transport-level call: either a response or a raised
exception carrying its message (`str(e)`). -/
inductive ReqOutcome where
| ok (resp : HttpResponse)
| exn (msg : String)
deriving DecidableEq

/-- A session is modelled by the outcome it produces for each possible
call (retry/backoff behaviour is folded into this single outcome). -/
def Session := HttpCall → ReqOutcome

/-- The executor's result dict: `status_code`, `size`, optional
`error`. -/
structure ReqResult where
  status_code : ℕ
  size : ℕ
  error : Option String := none
deriving DecidableEq

/-- Python `len(response.content) if response.content else 0`, with the
falsy branch written out as in the source. -/
def contentSize (resp : HttpResponse) : ℕ :=
  if resp.content = [] then 0 else resp.content.length

/-- Shared success/except shape of the three `_make_*_request` bodies:
on a response return its status and size with no error, on a raised
exception return the 0 sentinel, size 0 and the message. -/
def callToResult (o : ReqOutcome) : ReqResult :=
  match o with
  | .ok resp => { status_code := resp.status_code, size := contentSize resp }
  | .exn e => { status_code := 0, size := 0, error := some e }

/-- `EnhancedHttpRunner._make_web_request` (lines 227-241): a single GET
to the target URL. -/
def makeWebRequest (session : Session) (cfg : TestConfig) : ReqResult :=
  callToResult (session (.get cfg.target_url))

/-- The method string `_make_api_request` derives at line 247:
`config.custom_params.get('method', 'GET').upper()` when custom
parameters are present, else `'GET'`. -/
def apiMethod (cfg : TestConfig) : String :=
  match cfg.custom_params with
  | some cp => (cp.method.getD "GET").toUpper
  | none => "GET"

/-- The payload `_make_api_request` reads for POST/PUT (lines 252, 255):
`config.custom_params.get('payload', \x7b\x7d)` when custom parameters
are present, else the empty object. -/
def apiPayload (cfg : TestConfig) : Payload :=
  match cfg.custom_params with
  | some cp => cp.payload.getD .emptyObj
  | none => .emptyObj

/-- The HTTP call `_make_api_request` (lines 243-272) dispatches to:
GET/POST/PUT/DELETE on the method string, any other method falling back
to GET. -/
def apiCall (cfg : TestConfig) : HttpCall :=
  let m := apiMethod cfg
  if m = "GET" then .get cfg.target_url
  else if m = "POST" then .post cfg.target_url (apiPayload cfg)
  else if m = "PUT" then .put cfg.target_url (apiPayload cfg)
  else if m = "DELETE" then .delete cfg.target_url
  else .get cfg.target_url

/-- `EnhancedHttpRunner._make_api_request`. -/
def makeApiRequest (session : Session) (cfg : TestConfig) : ReqResult :=
  callToResult (session (apiCall cfg))

/-- `EnhancedHttpRunner._make_webhook_request` (lines 274-312): POST the
synthetic Telegram update; the three random identifiers and the epoch
second are inputs of the embedding. -/
def makeWebhookRequest (session : Session) (cfg : TestConfig)
    (rand1 rand2 rand3 now : ℕ) : ReqResult :=
  callToResult (session (.post cfg.target_url
    (.webhookUpdate rand1 rand2 rand3 now "Hello from load test!")))

/-- Test-type dispatch of `make_requests_for_user` (lines 62-68): the
request function is selected once per user from `config.test_type`. -/
def executeRequest (session : Session) (cfg : TestConfig)
    (rand1 rand2 rand3 now : ℕ) : ReqResult :=
  if cfg.test_type = "telegram-webhook" then
    makeWebhookRequest session cfg rand1 rand2 rand3 now
  else if cfg.test_type = "api-endpoint" then
    makeApiRequest session cfg
  else
    makeWebRequest session cfg

/-- Record built on the normal path of the per-user loop (lines 92-99):
the executor's dict is read back with 0/none defaults that are always
present. -/
def mkRecord (rt : ℚ) (rr : ReqResult) : RespRecord :=
  { response_time := rt, status_code := rr.status_code, size := rr.size,
    error := rr.error }

/-- Record built on the exception path of the per-user loop (lines
108-115). -/
def mkExnRecord (msg : String) : RespRecord :=
  { response_time := 0, status_code := 0, size := 0, error := some msg }

/-- One event of a virtual user's request loop: the attempt's start
time, its completion time, and the pacing sleep performed after it
(`0` when the loop broke instead of sleeping). -/
structure LoopEvent where
  reqStart : ℚ
  reqEnd : ℚ
  sleepDur : ℚ
deriving DecidableEq

/-- The timing skeleton of `make_requests_for_user` (lines 79-126),
with the wall clock explicit.  `endTime` is `start_time +
config.duration`, `interval` the pacing interval, `t` the current
clock, and `durs` the (finite) schedule of request durations, one
consumed per attempt; the loop also stops when the schedule runs out,
standing for the end of observable behaviour.  Each iteration: the
`while t < endTime` guard, one request taking `d`, then the
`remaining <= 0` break, else a sleep of
`min interval (max 0 remaining)`. -/
def userLoop (endTime interval : ℚ) : ℚ → List ℚ → List LoopEvent
| _, [] => []
| t, d :: rest =>
  if t < endTime then
    if endTime - (t + d) ≤ 0 then [⟨t, t + d, 0⟩]
    else
      ⟨t, t + d, min interval (max 0 (endTime - (t + d)))⟩ ::
        userLoop endTime interval
          (t + d + min interval (max 0 (endTime - (t + d)))) rest
  else []

/-- The ramp-up sleep `run_test` performs immediately before submitting
the i-th user (lines 136-140): `min((rampup / users) * i, 1.0)` when
`rampup > 0` and `i > 0`, else no sleep. -/
def rampDelay (users rampup : ℤ) (i : ℕ) : ℚ :=
  if 0 < rampup ∧ 0 < i then
    min (((rampup : ℚ) / (users : ℚ)) * (i : ℚ)) 1
  else 0

/-- The delay, measured from the start of the submission loop, after
which the i-th user is submitted: the ramp-up sleeps accumulate, so it
is the sum of all sleeps performed before users `1, …, i`. -/
def startOffset (users rampup : ℤ) : ℕ → ℚ
| 0 => 0
| i + 1 => startOffset users rampup i + rampDelay users rampup (i + 1)

/-- The global CLI configuration of `cli.py` as far as the run gate
reads it: `framework` is `Optional[str]` (initially `None`). -/
structure CliConfig where
  framework : Option String := none
  test_type : String := "web-site"
  target_url : String := ""
  users : ℤ := 100
  duration : ℤ := 60
  rampup : ℤ := 10
deriving DecidableEq

/-- Python truthiness of the optional framework string. -/
def frameworkTruthy : Option String → Bool
| none => false
| some s => !(s == "")

/-- `get_available_frameworks` (frameworks/__init__.py): the built-in
names are always present, followed by whichever external tools the
environment provides (a parameter of the embedding). -/
def availableFrameworks (envExtras : List String) : List String :=
  ["simple", "http", "advanced", "builtin"] ++ envExtras

/-- The synchronous validation `handle_run_command` (cli.py lines
252-280) performs before any runner is constructed: missing target URL,
unset framework, unset test type, unavailable framework — in source
order.  `none` means the run proceeds to the runner.  No check of
`users` or `duration` appears in this gate or anywhere in
`run_test`. -/
def cliRunCheck (c : CliConfig) (envExtras : List String) :
    Option String :=
  if c.target_url = "" then some "no target URL"
  else if !(frameworkTruthy c.framework) then some "no framework"
  else if c.test_type = "" then some "no test type"
  else if !((availableFrameworks envExtras).contains
      (c.framework.getD "")) then some "framework not available"
  else none

/-- `handle_users_command` (cli.py lines 377-390): the new value is
accepted only when positive, otherwise the current value is kept. -/
def setUsers (current newVal : ℤ) : ℤ :=
  if 0 < newVal then newVal else current

/-- `handle_duration_command` (cli.py lines 392-405): same positive-only
acceptance. -/
def setDuration (current newVal : ℤ) : ℤ :=
  if 0 < newVal then newVal else current

/-- Number of worker futures `run_test` submits (lines 136-144): one per
`range(config.users)` iteration while the runner is active — with the
flag set at line 32 and nothing clearing it during submission, that is
`users` when positive and `0` otherwise (Python `range` of a
non-positive bound is empty). -/
def workersStarted (c : CliConfig) : ℕ := c.users.toNat

/-- A configuration with a set URL, framework and test type but a
non-positive duration, as `Config.from_dict` can produce when loading a
saved file (no range check is applied there). -/
def c9badConfig : CliConfig :=
  { framework := some "simple", test_type := "web-site",
    target_url := "http://x", users := 5, duration := 0, rampup := 0 }

/-- Nineteen successful records with response times `1 … 19`
milliseconds, one short of the percentile threshold. -/
def c4recs19 : List RespRecord :=
  [⟨1, 200, 0, none⟩, ⟨2, 200, 0, none⟩, ⟨3, 200, 0, none⟩,
   ⟨4, 200, 0, none⟩, ⟨5, 200, 0, none⟩, ⟨6, 200, 0, none⟩,
   ⟨7, 200, 0, none⟩, ⟨8, 200, 0, none⟩, ⟨9, 200, 0, none⟩,
   ⟨10, 200, 0, none⟩, ⟨11, 200, 0, none⟩, ⟨12, 200, 0, none⟩,
   ⟨13, 200, 0, none⟩, ⟨14, 200, 0, none⟩, ⟨15, 200, 0, none⟩,
   ⟨16, 200, 0, none⟩, ⟨17, 200, 0, none⟩, ⟨18, 200, 0, none⟩,
   ⟨19, 200, 0, none⟩]

/-- Twenty successful records with response times `1 … 20` milliseconds,
exactly at the percentile threshold. -/
def c4recs20 : List RespRecord := c4recs19 ++ [⟨20, 200, 0, none⟩]

/-! Helper lemmas about the error-category dict. -/

theorem lookupCount_nil (k : String) : lookupCount [] k = 0 := rfl

theorem sumCounts_nil : sumCounts [] = 0 := rfl

theorem sumCounts_cons (p : String × ℕ) (m : List (String × ℕ)) :
    sumCounts (p :: m) = p.2 + sumCounts m := by
  simp [sumCounts]

theorem lookupCount_bumpCount (m : List (String × ℕ)) (k k' : String) :
    lookupCount (bumpCount m k) k' =
      lookupCount m k' + (if k = k' then 1 else 0) := by
  induction m with
  | nil =>
    by_cases h : k = k' <;> simp [bumpCount, lookupCount, h]
  | cons p rest ih =>
    obtain ⟨k0, v⟩ := p
    by_cases h0 : k0 = k
    · subst h0
      by_cases h1 : k0 = k' <;> simp [bumpCount, lookupCount, h1]
    · by_cases h1 : k0 = k'
      · subst h1
        have hkk : ¬(k = k0) := fun hh => h0 hh.symm
        simp [bumpCount, lookupCount, h0, hkk]
      · simp [bumpCount, lookupCount, h0, h1, ih]

theorem sumCounts_bumpCount (m : List (String × ℕ)) (k : String) :
    sumCounts (bumpCount m k) = sumCounts m + 1 := by
  induction m with
  | nil => simp [bumpCount, sumCounts]
  | cons p rest ih =>
    obtain ⟨k0, v⟩ := p
    by_cases h0 : k0 = k
    · simp [bumpCount, h0, sumCounts_cons]
      omega
    · simp [bumpCount, h0, sumCounts_cons, ih]
      omega

theorem lookupCount_countStep_foldl (label : RespRecord → Option String)
    (rs : List RespRecord) (m : List (String × ℕ)) (key : String) :
    lookupCount (rs.foldl (countStep label) m) key =
      lookupCount m key +
        (rs.filter (fun r => label r == some key)).length := by
  induction rs generalizing m with
  | nil => simp
  | cons r rest ih =>
    simp only [List.foldl_cons, List.filter_cons]
    cases h : label r with
    | none => simp [countStep, h, ih]
    | some k =>
      by_cases hk : k = key
      · subst hk
        simp [countStep, h, ih, lookupCount_bumpCount]
        omega
      · simp [countStep, h, ih, lookupCount_bumpCount, hk]

theorem sumCounts_countStep_foldl (label : RespRecord → Option String)
    (rs : List RespRecord) (m : List (String × ℕ)) :
    sumCounts (rs.foldl (countStep label) m) =
      sumCounts m + (rs.filter (fun r => (label r).isSome)).length := by
  induction rs generalizing m with
  | nil => simp
  | cons r rest ih =>
    simp only [List.foldl_cons, List.filter_cons]
    cases h : label r with
    | none => simp [countStep, h, ih]
    | some k =>
      simp [countStep, h, ih, sumCounts_bumpCount]
      omega

/-- C1 (amended): the error-category mapping counts each record at most
once, under the label computed by `labelOfEnhanced` /`labelOfSimple`:
the class name of the stored error value — the constant string "str",
since records store `str(e)` — whenever the error field is present
(truthy for the enhanced runner, key-present for the simple one), and
the stringified status code otherwise when it is at least 400.  Every
label's count is exactly the number of records carrying that label, and
the counts sum to the number of labelled records, so the error path is
preferred over the status-code path and no record is counted twice. -/
theorem c1_error_categorization (rs : List RespRecord) (key : String) :
    lookupCount (errorCountsEnhanced rs) key =
      (rs.filter (fun r => labelOfEnhanced r == some key)).length ∧
    sumCounts (errorCountsEnhanced rs) =
      (rs.filter (fun r => (labelOfEnhanced r).isSome)).length ∧
    lookupCount (errorCountsSimple rs) key =
      (rs.filter (fun r => labelOfSimple r == some key)).length ∧
    sumCounts (errorCountsSimple rs) =
      (rs.filter (fun r => (labelOfSimple r).isSome)).length := by
  refine ⟨?_, ?_, ?_, ?_⟩ <;>
    simp [errorCountsEnhanced, errorCountsSimple,
      lookupCount_countStep_foldl, sumCounts_countStep_foldl,
      lookupCount_nil, sumCounts_nil]

/-- C1 counterexample: two transport-failure records carrying the
distinct error strings "timeout" and "refused" are both grouped under
the single constant label "str" (the class name of a Python `str`), so
the mapping holds no per-error-string entry at all — refuting the
claim that each record is grouped under its own error-string label. -/
theorem c1_counterexample :
    errorCountsEnhanced
        [⟨0, 0, 0, some "timeout"⟩, ⟨0, 0, 0, some "refused"⟩] =
      [("str", 2)] ∧
    lookupCount
      (errorCountsEnhanced
        [⟨0, 0, 0, some "timeout"⟩, ⟨0, 0, 0, some "refused"⟩])
      "timeout" = 0 := by
  exact ⟨rfl, rfl⟩

/-- C7: aggregating an empty record collection yields a `TestResults`
whose counts, rates, latency statistics, percentiles and data-transfer
fields are all zero, for both runners; the embedding is a total
function, so the guard (`if all_responses:` / `if responses:`) rules
out every division by zero.  Only the configured duration is carried
over, as in the source. -/
theorem c7_empty_records_all_zero (elapsed : ℚ) (cfgDuration : ℤ) :
    (aggregateEnhanced [] elapsed cfgDuration).total_requests = 0 ∧
    (aggregateEnhanced [] elapsed cfgDuration).successful_requests = 0 ∧
    (aggregateEnhanced [] elapsed cfgDuration).failed_requests = 0 ∧
    (aggregateEnhanced [] elapsed cfgDuration).requests_per_second = 0 ∧
    (aggregateEnhanced [] elapsed cfgDuration).avg_response_time = 0 ∧
    (aggregateEnhanced [] elapsed cfgDuration).median_response_time = 0 ∧
    (aggregateEnhanced [] elapsed cfgDuration).p95_response_time = 0 ∧
    (aggregateEnhanced [] elapsed cfgDuration).p99_response_time = 0 ∧
    (aggregateEnhanced [] elapsed cfgDuration).min_response_time = 0 ∧
    (aggregateEnhanced [] elapsed cfgDuration).max_response_time = 0 ∧
    (aggregateEnhanced [] elapsed cfgDuration).error_rate = 0 ∧
    (aggregateEnhanced [] elapsed cfgDuration).data_sent_mb = 0 ∧
    (aggregateEnhanced [] elapsed cfgDuration).data_received_mb = 0 ∧
    (aggregateSimple [] elapsed cfgDuration).total_requests = 0 ∧
    (aggregateSimple [] elapsed cfgDuration).successful_requests = 0 ∧
    (aggregateSimple [] elapsed cfgDuration).failed_requests = 0 ∧
    (aggregateSimple [] elapsed cfgDuration).requests_per_second = 0 ∧
    (aggregateSimple [] elapsed cfgDuration).avg_response_time = 0 ∧
    (aggregateSimple [] elapsed cfgDuration).median_response_time = 0 ∧
    (aggregateSimple [] elapsed cfgDuration).p95_response_time = 0 ∧
    (aggregateSimple [] elapsed cfgDuration).p99_response_time = 0 ∧
    (aggregateSimple [] elapsed cfgDuration).min_response_time = 0 ∧
    (aggregateSimple [] elapsed cfgDuration).max_response_time = 0 ∧
    (aggregateSimple [] elapsed cfgDuration).error_rate = 0 ∧
    (aggregateSimple [] elapsed cfgDuration).data_sent_mb = 0 ∧
    (aggregateSimple [] elapsed cfgDuration).data_received_mb = 0 := by
  exact ⟨rfl, rfl, rfl, rfl, rfl, rfl, rfl, rfl, rfl, rfl, rfl, rfl,
    rfl, rfl, rfl, rfl, rfl, rfl, rfl, rfl, rfl, rfl, rfl, rfl, rfl,
    rfl⟩

/-- The shared try/except shape: every transport outcome maps either to
the failure dict (status 0, size 0, message) or to the success dict
read off a real response. -/
theorem callToResult_cases (o : ReqOutcome) :
    (∃ m, callToResult o = ⟨0, 0, some m⟩) ∨
    (∃ resp, o = .ok resp ∧
      callToResult o = ⟨resp.status_code, contentSize resp, none⟩) := by
  cases o with
  | ok resp => exact Or.inr ⟨resp, rfl, rfl⟩
  | exn m => exact Or.inl ⟨m, rfl⟩

/-- Whatever the test-type, one request execution is a single session
call wrapped in the shared success/except shape. -/
theorem executeRequest_eq_callToResult (session : Session)
    (cfg : TestConfig) (r1 r2 r3 now : ℕ) :
    ∃ call, executeRequest session cfg r1 r2 r3 now =
      callToResult (session call) := by
  by_cases h1 : cfg.test_type = "telegram-webhook"
  · exact ⟨.post cfg.target_url
      (.webhookUpdate r1 r2 r3 now "Hello from load test!"),
      by simp [executeRequest, makeWebhookRequest, h1]⟩
  · by_cases h2 : cfg.test_type = "api-endpoint"
    · exact ⟨apiCall cfg, by simp [executeRequest, makeApiRequest, h1, h2]⟩
    · exact ⟨.get cfg.target_url,
        by simp [executeRequest, makeWebRequest, h1, h2]⟩

/-- C6: for every session behaviour, target configuration and
test-type, a single request execution is total (the embedding returns a
result for every case, mirroring the all-enclosing try/except) and
either reports a transport failure as status code 0, size 0 and an
error message, or returns the real status code and content size of the
response actually produced by the session call it made. -/
theorem c6_request_error_channel (session : Session) (cfg : TestConfig)
    (r1 r2 r3 now : ℕ) :
    (∃ m, executeRequest session cfg r1 r2 r3 now = ⟨0, 0, some m⟩) ∨
    (∃ call resp, session call = .ok resp ∧
      executeRequest session cfg r1 r2 r3 now =
        ⟨resp.status_code, contentSize resp, none⟩) := by
  obtain ⟨call, hc⟩ := executeRequest_eq_callToResult session cfg r1 r2 r3 now
  rcases callToResult_cases (session call) with ⟨m, hm⟩ | ⟨resp, hok, hr⟩
  · exact Or.inl ⟨m, hc.trans hm⟩
  · exact Or.inr ⟨call, resp, hok, hc.trans hr⟩

/-- C2 counterexample: a run that produced one record (a transport
failure, response time 0) over a 10-second elapsed window reports 0
requests per second instead of total/elapsed = 1/10, in BOTH runners:
each computes the rate inside its `if response_times:` branch, which is
skipped when no record has a strictly positive response time.  This
refutes both "equals total divided by elapsed" and "nonzero even when
every record has zero response time". -/
theorem c2_counterexample :
    (aggregateEnhanced [⟨0, 0, 0, some "connection refused"⟩] 10 10
      ).requests_per_second = 0 ∧
    (aggregateSimple [⟨0, 0, 0, some "connection refused"⟩] 10 10
      ).requests_per_second = 0 ∧
    ((([⟨0, 0, 0, some "connection refused"⟩] :
      List RespRecord).length : ℚ) / 10 ≠ 0) := by
  refine ⟨rfl, rfl, by norm_num⟩

/-- C2 (amended): in both runners, whenever at least one record has a
strictly positive response time and the elapsed wall-clock time is
positive, the reported requests-per-second equals the total record
count divided by the elapsed seconds; without such a record the
rate-computation branch is skipped and the field keeps its zero
default. -/
theorem c2_requests_per_second (rs : List RespRecord) (elapsed : ℚ)
    (d : ℤ) (hel : 0 < elapsed)
    (hpos : ∃ r ∈ rs, 0 < r.response_time) :
    (aggregateEnhanced rs elapsed d).requests_per_second =
      (rs.length : ℚ) / elapsed ∧
    (aggregateSimple rs elapsed d).requests_per_second =
      (rs.length : ℚ) / elapsed := by
  obtain ⟨r, hr, hrt⟩ := hpos
  have hne : rs.isEmpty = false := by
    cases rs with
    | nil => exact absurd hr (List.not_mem_nil r)
    | cons a l => rfl
  have hmem : r ∈ rs.filter (fun r => decide (0 < r.response_time)) :=
    List.mem_filter.2 ⟨hr, by simpa using hrt⟩
  have hrts : (posTimes rs).isEmpty = false := by
    cases hfil : rs.filter (fun r => decide (0 < r.response_time)) with
    | nil => rw [hfil] at hmem; exact absurd hmem (List.not_mem_nil r)
    | cons a l => simp [posTimes, hfil]
  constructor
  · simp only [aggregateEnhanced, hne, Bool.false_eq_true, if_false,
      hrts, Bool.not_false, if_true, hel, if_pos]
  · simp only [aggregateSimple, hne, Bool.false_eq_true, if_false,
      hrts, Bool.not_false, if_true, hel, if_pos]

/-- Witness for C2: one successful 5 ms record over a 10-second window
gives 1/10 requests per second in both runners. -/
theorem c2_witness :
    (aggregateEnhanced [⟨5, 200, 3, none⟩] 10 1).requests_per_second =
      (([⟨5, 200, 3, none⟩] : List RespRecord).length : ℚ) / 10 ∧
    (aggregateSimple [⟨5, 200, 3, none⟩] 10 1).requests_per_second =
      (([⟨5, 200, 3, none⟩] : List RespRecord).length : ℚ) / 10 :=
  c2_requests_per_second [⟨5, 200, 3, none⟩] 10 1 (by norm_num)
    ⟨⟨5, 200, 3, none⟩, by simp, by norm_num⟩

/-- When every ramp increment up to `i` is below the 1-second cap, the
accumulated sleeps form the triangular sum `R/N * i*(i+1)/2` — the
start offsets grow quadratically, not linearly, in `i`. -/
theorem startOffset_closed_form (users rampup : ℤ) (hu : 0 < users)
    (hr : 0 < rampup) (i : ℕ) (hcap : (i : ℚ) * rampup / users ≤ 1) :
    startOffset users rampup i =
      (rampup : ℚ) / users * ((i : ℚ) * ((i : ℚ) + 1) / 2) := by
  induction i with
  | zero => simp [startOffset]
  | succ n ih =>
    have hq : (0 : ℚ) < (rampup : ℚ) / users :=
      div_pos (by exact_mod_cast hr) (by exact_mod_cast hu)
    have hcapn : ((n : ℚ) + 1) * rampup / users ≤ 1 := by
      push_cast at hcap
      linarith
    have hmono : (n : ℚ) * rampup / users ≤ ((n : ℚ) + 1) * rampup / users := by
      rw [mul_div_assoc, mul_div_assoc]
      have hn : (n : ℚ) ≤ (n : ℚ) + 1 := by linarith
      nlinarith
    have hstep : rampDelay users rampup (n + 1) =
        (rampup : ℚ) / users * ((n : ℚ) + 1) := by
      have hcond : 0 < rampup ∧ 0 < n + 1 := ⟨hr, Nat.succ_pos n⟩
      rw [rampDelay, if_pos hcond]
      push_cast
      apply min_eq_left
      calc (rampup : ℚ) / users * ((n : ℚ) + 1)
          = ((n : ℚ) + 1) * rampup / users := by ring
        _ ≤ 1 := hcapn
    rw [startOffset, ih (le_trans hmono hcapn), hstep]
    push_cast
    ring

/-- C3 counterexample: with 4 users and a 2-second ramp-up the delays
before users 1 and 2 are 1/2 s and 3/2 s — the cross-ratio against
`i * rampup / users` differs (3/4 versus 1/2), so the start delays are
not proportional to `i * rampup / users`: the per-user sleeps
accumulate instead. -/
theorem c3_counterexample :
    startOffset 4 2 2 * ((1 : ℚ) * 2 / 4) ≠
      startOffset 4 2 1 * ((2 : ℚ) * 2 / 4) := by
  norm_num [startOffset, rampDelay]

/-- C3 (amended): for positive user count and ramp-up, the sleep
performed immediately before starting the (i+1)-th user is
`min ((rampup/users) * (i+1)) 1` — an increment proportional to
`(i+1) * rampup / users`, capped at 1 second — but these sleeps are
cumulative, so while every increment is at most 1 second, the delay of
user `i` from the start of the submission loop is the triangular sum
`(rampup/users) * i*(i+1)/2` whenever the cap is not yet reached (and
in general the sum of the capped increments), not `i * rampup /
users`. -/
theorem c3_rampup_stagger (users rampup : ℤ) (i : ℕ)
    (hu : 0 < users) (hr : 0 < rampup) :
    startOffset users rampup (i + 1) =
      startOffset users rampup i +
        min ((rampup : ℚ) / (users : ℚ) * ((i : ℚ) + 1)) 1 ∧
    startOffset users rampup (i + 1) - startOffset users rampup i ≤ 1 ∧
    ((i : ℚ) * rampup / users ≤ 1 →
      startOffset users rampup i =
        (rampup : ℚ) / users * ((i : ℚ) * ((i : ℚ) + 1) / 2)) := by
  have hcond : 0 < rampup ∧ 0 < i + 1 := ⟨hr, Nat.succ_pos i⟩
  have hstep : startOffset users rampup (i + 1) =
      startOffset users rampup i +
        min ((rampup : ℚ) / (users : ℚ) * ((i : ℚ) + 1)) 1 := by
    rw [startOffset, rampDelay, if_pos hcond]
    push_cast
    ring_nf
  refine ⟨hstep, ?_, startOffset_closed_form users rampup hu hr i⟩
  rw [hstep]
  have hmin : min ((rampup : ℚ) / (users : ℚ) * ((i : ℚ) + 1)) 1 ≤ 1 :=
    min_le_right _ _
  linarith

/-- Witness for C3: at 4 users, 2-second ramp-up, the first user's
start offset is 2/4 * (1*2/2) = 1/2 second, and the sleep before user
2 is the capped min(2/4 * 2, 1) = 1. -/
theorem c3_witness :
    startOffset 4 2 1 = 1 / 2 ∧ startOffset 4 2 2 = 3 / 2 := by
  have h := c3_rampup_stagger 4 2 1 (by norm_num) (by norm_num)
  have h1 : startOffset 4 2 1 = 1 / 2 := by
    have h3 := h.2.2 (by norm_num)
    norm_num at h3
    exact h3
  have h2 := h.1
  norm_num [h1] at h2
  exact ⟨h1, h2⟩

/-- C8: the virtual-user loop (`make_requests_for_user`) respects the
shared deadline: a user whose clock is already at or past the deadline
produces no events at all (zero records, normal exit); every attempt
starts strictly before the deadline; and the pacing sleep after an
attempt never carries the clock past the deadline (it is clamped to
the remaining time, and when no time remains the loop breaks with no
sleep) — only the request itself can overrun, which the
`max endTime e.reqEnd` bound accounts for. -/
theorem c8_deadline_loop (endTime interval t : ℚ) (durs : List ℚ) :
    (endTime ≤ t → userLoop endTime interval t durs = []) ∧
    (∀ e ∈ userLoop endTime interval t durs,
      e.reqStart < endTime ∧
      e.reqEnd + e.sleepDur ≤ max endTime e.reqEnd) := by
  induction durs generalizing t with
  | nil =>
    refine ⟨fun _ => rfl, ?_⟩
    intro e he
    simp [userLoop] at he
  | cons d rest ih =>
    constructor
    · intro h
      rw [userLoop, if_neg (not_lt.2 h)]
    · intro e he
      rw [userLoop] at he
      by_cases hlt : t < endTime
      · rw [if_pos hlt] at he
        by_cases hrem : endTime - (t + d) ≤ 0
        · rw [if_pos hrem] at he
          simp only [List.mem_singleton] at he
          subst he
          exact ⟨hlt, by simp⟩
        · rw [if_neg hrem] at he
          rcases List.mem_cons.1 he with he1 | he2
          · subst he1
            refine ⟨hlt, ?_⟩
            have h1 : min interval (max 0 (endTime - (t + d))) ≤
                max 0 (endTime - (t + d)) := min_le_right _ _
            calc t + d + min interval (max 0 (endTime - (t + d)))
                ≤ t + d + max 0 (endTime - (t + d)) := by linarith
              _ = max (t + d + 0) (t + d + (endTime - (t + d))) :=
                (max_add_add_left _ _ _).symm
              _ = max endTime (t + d) := by
                rw [add_zero]
                rw [show t + d + (endTime - (t + d)) = endTime by ring]
                exact max_comm _ _
          · exact (ih _).2 e he2
      · rw [if_neg hlt] at he
        exact absurd he (List.not_mem_nil e)

/-- Witness for C8: a user starting exactly at the 5-second deadline
performs no attempt and returns no events. -/
theorem c8_witness : userLoop 5 (1 / 10) 5 [1, 1] = [] :=
  (c8_deadline_loop 5 (1 / 10) 5 [1, 1]).1 (le_refl 5)

/-- C9 counterexample: a configuration with target URL "http://x",
framework "simple", test type "web-site", 5 users and duration 0 — a
non-positive duration — passes the synchronous run gate of
`handle_run_command` (which checks only URL, framework, test type and
framework availability) and reaches the runner, which submits 5 worker
futures: the run is not rejected before the scheduler starts workers,
refuting the claim for non-positive durations. -/
theorem c9_counterexample :
    c9badConfig.duration ≤ 0 ∧
    cliRunCheck c9badConfig [] = none ∧
    workersStarted c9badConfig = 5 := by
  refine ⟨by norm_num [c9badConfig], rfl, rfl⟩

/-- C9 (amended): the synchronous run gate rejects a missing target URL
(and an unset framework) before any runner is constructed, but it
never examines the user count or duration; non-positive values for
those are refused only by the interactive `/users` and `/duration`
setters, which keep the current value, so a configuration that obtains
such values by another path (e.g. a loaded file) reaches the scheduler
unrejected. -/
theorem c9_validation_gate (c : CliConfig) (env : List String)
    (cur n : ℤ) :
    (c.target_url = "" → cliRunCheck c env = some "no target URL") ∧
    (cliRunCheck c env = none →
      c.target_url ≠ "" ∧ frameworkTruthy c.framework = true) ∧
    (n ≤ 0 → setUsers cur n = cur ∧ setDuration cur n = cur) ∧
    (0 < n → setUsers cur n = n ∧ setDuration cur n = n) := by
  refine ⟨?_, ?_, ?_, ?_⟩
  · intro h
    simp [cliRunCheck, h]
  · intro h
    by_cases hu : c.target_url = ""
    · simp [cliRunCheck, hu] at h
    · refine ⟨hu, ?_⟩
      by_cases hf : frameworkTruthy c.framework
      · exact hf
      · simp [cliRunCheck, hu, hf] at h
  · intro h
    have hn : ¬(0 < n) := by omega
    exact ⟨by simp [setUsers, hn], by simp [setDuration, hn]⟩
  · intro h
    exact ⟨by simp [setUsers, h], by simp [setDuration, h]⟩

/-- Witness for C9: the empty-URL rejection and the setter refusals at
concrete values. -/
theorem c9_witness :
    cliRunCheck { c9badConfig with target_url := "" } [] =
      some "no target URL" ∧
    setUsers 100 0 = 100 ∧ setDuration 60 (-5) = 60 := by
  refine ⟨(c9_validation_gate { c9badConfig with target_url := "" } []
    100 0).1 rfl, ?_, ?_⟩
  · exact ((c9_validation_gate c9badConfig [] 100 0).2.2.1
      (by norm_num)).1
  · exact ((c9_validation_gate c9badConfig [] 60 (-5)).2.2.1
      (by norm_num)).2

/-! Helper lemmas about filters and sorting used by the aggregation
claims. -/

theorem length_sortAsc (l : List ℚ) : (sortAsc l).length = l.length :=
  (List.perm_insertionSort (· ≤ ·) l).length_eq

theorem sortAsc_ne_nil (l : List ℚ) (h : l ≠ []) : sortAsc l ≠ [] := by
  intro hs
  apply h
  have := length_sortAsc l
  rw [hs] at this
  exact List.length_eq_zero.1 this.symm

theorem length_filter_pair_le {α : Type} (l : List α) (p q : α → Bool)
    (h : ∀ a ∈ l, ¬(p a = true ∧ q a = true)) :
    (l.filter p).length + (l.filter q).length ≤ l.length := by
  induction l with
  | nil => simp
  | cons x xs ih =>
    have hx := h x (List.mem_cons_self x xs)
    have ih2 := ih (fun a ha => h a (List.mem_cons_of_mem x ha))
    simp only [List.filter_cons]
    by_cases hp : p x = true <;> by_cases hq : q x = true
    · exact absurd ⟨hp, hq⟩ hx
    · simp [hp, hq]; omega
    · simp [hp, hq]; omega
    · simp [hp, hq]; omega

theorem length_filter_three_partition {α : Type} (l : List α)
    (p q r : α → Bool)
    (h : ∀ a ∈ l, (if p a then 1 else 0) + (if q a then 1 else 0) +
      (if r a then 1 else 0) = 1) :
    (l.filter p).length + (l.filter q).length + (l.filter r).length =
      l.length := by
  induction l with
  | nil => simp
  | cons x xs ih =>
    have hx := h x (List.mem_cons_self x xs)
    have ih2 := ih (fun a ha => h a (List.mem_cons_of_mem x ha))
    simp only [List.filter_cons]
    by_cases hp : p x = true <;> by_cases hq : q x = true <;>
      by_cases hr : r x = true <;> simp [hp, hq, hr] at hx ⊢ <;> omega

/-- C5: over any nonempty record collection produced by the run — i.e.
in which every record either carries a truthy error string or has a
genuine (nonzero) status code, which is how both executor paths build
records — the enhanced aggregation counts as successful exactly the
records with `0 < code < 400` and no error string, as failed exactly
those with `code ≥ 400`, sets
`error_rate = (failed + error-records) / total * 100`, and satisfies
`total = successful + failed + (error records not already counted as
failed)`. -/
theorem c5_classification (rs : List RespRecord) (elapsed : ℚ) (d : ℤ)
    (hne : rs ≠ [])
    (hwf : ∀ r ∈ rs, errTruthy r.error = true ∨ 0 < r.status_code) :
    (aggregateEnhanced rs elapsed d).successful_requests =
      (rs.filter (fun r => decide (0 < r.status_code) &&
        decide (r.status_code < 400) && !(errTruthy r.error))).length ∧
    (aggregateEnhanced rs elapsed d).failed_requests =
      (rs.filter (fun r => decide (400 ≤ r.status_code))).length ∧
    (aggregateEnhanced rs elapsed d).error_rate =
      (((rs.filter (fun r => decide (400 ≤ r.status_code))).length : ℚ) +
        ((rs.filter (fun r => errTruthy r.error)).length : ℚ)) /
        (rs.length : ℚ) * 100 ∧
    (aggregateEnhanced rs elapsed d).total_requests =
      (aggregateEnhanced rs elapsed d).successful_requests +
        (aggregateEnhanced rs elapsed d).failed_requests +
        (rs.filter (fun r => errTruthy r.error &&
          !(decide (400 ≤ r.status_code)))).length := by
  have hEmpty : rs.isEmpty = false := by
    cases rs with
    | nil => exact absurd rfl hne
    | cons a l => rfl
  have hfsucc : rs.filter (fun r => decide (r.status_code ≠ 0) &&
      decide (0 < r.status_code) && decide (r.status_code < 400) &&
      !(errTruthy r.error)) =
      rs.filter (fun r => decide (0 < r.status_code) &&
        decide (r.status_code < 400) && !(errTruthy r.error)) := by
    apply List.filter_congr
    intro r _
    by_cases h0 : r.status_code = 0 <;>
      simp [h0, Nat.pos_of_ne_zero, Bool.and_assoc]
  have hffail : rs.filter (fun r => decide (r.status_code ≠ 0) &&
      decide (400 ≤ r.status_code)) =
      rs.filter (fun r => decide (400 ≤ r.status_code)) := by
    apply List.filter_congr
    intro r _
    by_cases h4 : 400 ≤ r.status_code
    · have h0 : r.status_code ≠ 0 := by omega
      simp [h4, h0]
    · simp [h4]
  have hsucc : (aggregateEnhanced rs elapsed d).successful_requests =
      (rs.filter (fun r => decide (0 < r.status_code) &&
        decide (r.status_code < 400) && !(errTruthy r.error))).length := by
    simp only [aggregateEnhanced, hEmpty, Bool.false_eq_true, if_false,
      hfsucc]
  have hfail : (aggregateEnhanced rs elapsed d).failed_requests =
      (rs.filter (fun r => decide (400 ≤ r.status_code))).length := by
    simp only [aggregateEnhanced, hEmpty, Bool.false_eq_true, if_false,
      hffail]
  have hlen : 0 < rs.length := List.length_pos.2 hne
  have hrate : (aggregateEnhanced rs elapsed d).error_rate =
      (((rs.filter (fun r => decide (400 ≤ r.status_code))).length : ℚ) +
        ((rs.filter (fun r => errTruthy r.error)).length : ℚ)) /
        (rs.length : ℚ) * 100 := by
    simp only [aggregateEnhanced, hEmpty, Bool.false_eq_true, if_false,
      hffail, if_pos hlen]
  have htotal : (aggregateEnhanced rs elapsed d).total_requests =
      rs.length := by
    simp only [aggregateEnhanced, hEmpty, Bool.false_eq_true, if_false]
  have hpart : (rs.filter (fun r => decide (0 < r.status_code) &&
        decide (r.status_code < 400) && !(errTruthy r.error))).length +
      (rs.filter (fun r => decide (400 ≤ r.status_code))).length +
      (rs.filter (fun r => errTruthy r.error &&
        !(decide (400 ≤ r.status_code)))).length = rs.length := by
    apply length_filter_three_partition
    intro r hr
    rcases hwf r hr with herr | hpos
    · by_cases h4 : 400 ≤ r.status_code <;> simp [herr, h4]
    · by_cases herr : errTruthy r.error = true
      · by_cases h4 : 400 ≤ r.status_code <;> simp [herr, h4]
      · by_cases h4 : 400 ≤ r.status_code
        · have h400f : ¬(r.status_code < 400) := by omega
          simp [herr, h4, h400f]
        · have h400 : r.status_code < 400 := by omega
          simp [herr, h4, h400, hpos]
  refine ⟨hsucc, hfail, hrate, ?_⟩
  rw [htotal, hsucc, hfail]
  omega

/-- Witness for C5: three records — one success (200), one failure
(500), one transport error — satisfy the well-formedness hypothesis,
and `total = successful + failed + error-not-failed` holds. -/
theorem c5_witness :
    ([⟨5, 200, 3, none⟩, ⟨1, 500, 0, none⟩, ⟨0, 0, 0, some "boom"⟩] :
      List RespRecord) ≠ [] ∧
    (aggregateEnhanced
        [⟨5, 200, 3, none⟩, ⟨1, 500, 0, none⟩, ⟨0, 0, 0, some "boom"⟩]
        1 1).total_requests =
      (aggregateEnhanced
        [⟨5, 200, 3, none⟩, ⟨1, 500, 0, none⟩, ⟨0, 0, 0, some "boom"⟩]
        1 1).successful_requests +
      (aggregateEnhanced
        [⟨5, 200, 3, none⟩, ⟨1, 500, 0, none⟩, ⟨0, 0, 0, some "boom"⟩]
        1 1).failed_requests +
      (([⟨5, 200, 3, none⟩, ⟨1, 500, 0, none⟩, ⟨0, 0, 0, some "boom"⟩] :
        List RespRecord).filter (fun r => errTruthy r.error &&
          !(decide (400 ≤ r.status_code)))).length :=
  ⟨by simp, (c5_classification
      [⟨5, 200, 3, none⟩, ⟨1, 500, 0, none⟩, ⟨0, 0, 0, some "boom"⟩]
      1 1 (by simp) (by decide)).2.2.2⟩

/-- C4 counterexample: the simple runner computes percentiles with no
minimum-sample guard: a single record with a 5 ms response time (n = 1,
far below 20) yields a 95th percentile of 5, not the zero default the
claim requires for n < 20. -/
theorem c4_counterexample :
    (posTimes [⟨5, 200, 10, none⟩]).length = 1 ∧
    (aggregateSimple [⟨5, 200, 10, none⟩] 1 1).p95_response_time = 5 ∧
    (5 : ℚ) ≠ 0 := by
  refine ⟨rfl, rfl, by norm_num⟩

/-- C4 (amended): percentiles are taken from the ascending sort of the
strictly-positive response times at the truncated indices
`⌊0.95·n⌋` / `⌊0.99·n⌋`.  The ENHANCED runner computes them only when
`n ≥ 20` and leaves the zero default when `n < 20` (so at n = 20 the
95th percentile is the element at index 19, the last element, and at
n = 19 none is computed); the SIMPLE runner computes them for every
`n ≥ 1`, with no minimum-sample guard. -/
theorem c4_percentiles (rs : List RespRecord) (elapsed : ℚ) (d : ℤ) :
    ((posTimes rs).length < 20 →
      (aggregateEnhanced rs elapsed d).p95_response_time = 0 ∧
      (aggregateEnhanced rs elapsed d).p99_response_time = 0) ∧
    (20 ≤ (posTimes rs).length →
      (aggregateEnhanced rs elapsed d).p95_response_time =
        (sortAsc (posTimes rs)).getD (95 * (posTimes rs).length / 100) 0 ∧
      (aggregateEnhanced rs elapsed d).p99_response_time =
        (sortAsc (posTimes rs)).getD (99 * (posTimes rs).length / 100) 0) ∧
    (1 ≤ (posTimes rs).length →
      (aggregateSimple rs elapsed d).p95_response_time =
        (sortAsc (posTimes rs)).getD (95 * (posTimes rs).length / 100) 0 ∧
      (aggregateSimple rs elapsed d).p99_response_time =
        (sortAsc (posTimes rs)).getD (99 * (posTimes rs).length / 100) 0) := by
  have hlen : (sortAsc (posTimes rs)).length = (posTimes rs).length :=
    length_sortAsc (posTimes rs)
  cases hEmpty : rs.isEmpty with
  | true =>
    have hrs : rs = [] := List.isEmpty_iff.1 hEmpty
    subst hrs
    refine ⟨fun _ => ⟨rfl, rfl⟩, fun h => absurd h (by simp [posTimes]),
      fun h => absurd h (by simp [posTimes])⟩
  | false =>
    refine ⟨?_, ?_, ?_⟩
    · intro hlt
      have h20 : ¬(20 ≤ (sortAsc (posTimes rs)).length) := by
        rw [hlen]; omega
      have h20p : ¬(20 ≤ (posTimes rs).length) := by omega
      constructor <;>
        simp [aggregateEnhanced, hEmpty, h20, h20p, hlen]
    · intro h20
      have hpos : (posTimes rs).isEmpty = false := by
        cases hpt : posTimes rs with
        | nil => rw [hpt] at h20; simp at h20
        | cons a l => rfl
      have hi95 : 95 * (posTimes rs).length / 100 <
          (posTimes rs).length := by omega
      have hi99 : 99 * (posTimes rs).length / 100 <
          (posTimes rs).length := by omega
      constructor <;>
        simp [aggregateEnhanced, hEmpty, hpos, h20, hi95, hi99, hlen]
    · intro h1
      have hpos : (posTimes rs).isEmpty = false := by
        cases hpt : posTimes rs with
        | nil => rw [hpt] at h1; simp at h1
        | cons a l => rfl
      have hi95 : 95 * (posTimes rs).length / 100 <
          (posTimes rs).length := by omega
      have hi99 : 99 * (posTimes rs).length / 100 <
          (posTimes rs).length := by omega
      constructor <;>
        simp [aggregateSimple, hEmpty, hpos, hi95, hi99, hlen]

/-- Witness for C4: with exactly 20 known response times 1 … 20 ms the
enhanced 95th percentile is the element at index
`⌊0.95·20⌋ = 19` — the last element, 20 ms — while with 19 records no
percentile is computed and the field stays 0. -/
theorem c4_witness :
    20 ≤ (posTimes c4recs20).length ∧
    (aggregateEnhanced c4recs20 1 1).p95_response_time = 20 ∧
    (posTimes c4recs19).length < 20 ∧
    (aggregateEnhanced c4recs19 1 1).p95_response_time = 0 := by
  refine ⟨by decide, ?_, by decide, ?_⟩
  · have h := ((c4_percentiles c4recs20 1 1).2.1 (by decide)).1
    rw [h]
    rfl
  · exact ((c4_percentiles c4recs19 1 1).1 (by decide)).1

/-- C10: every record that carries a truthy error description has
status code 0 and size 0 — on both the executor path and the exception
path of the per-user loop — so failed records (status ≥ 400) and
error-string records are disjoint, and consequently the computed
error rate never exceeds 100 percent. -/
theorem c10_error_records_disjoint (session : Session)
    (cfg : TestConfig) (r1 r2 r3 now : ℕ) (rt : ℚ) (msg : String)
    (rs : List RespRecord) (elapsed : ℚ) (d : ℤ) :
    (errTruthy (mkRecord rt
        (executeRequest session cfg r1 r2 r3 now)).error = true →
      (mkRecord rt (executeRequest session cfg r1 r2 r3 now)
        ).status_code = 0 ∧
      (mkRecord rt (executeRequest session cfg r1 r2 r3 now)).size = 0) ∧
    ((mkExnRecord msg).status_code = 0 ∧ (mkExnRecord msg).size = 0) ∧
    ((∀ r ∈ rs, errTruthy r.error = true → r.status_code = 0) →
      (∀ r ∈ rs, ¬(400 ≤ r.status_code ∧ errTruthy r.error = true)) ∧
      (aggregateEnhanced rs elapsed d).error_rate ≤ 100) := by
  refine ⟨?_, ⟨rfl, rfl⟩, ?_⟩
  · intro herr
    obtain ⟨call, hc⟩ :=
      executeRequest_eq_callToResult session cfg r1 r2 r3 now
    rcases callToResult_cases (session call) with ⟨m, hm⟩ | ⟨resp, _, hr⟩
    · rw [hc, hm] at herr ⊢
      exact ⟨rfl, rfl⟩
    · rw [hc, hr] at herr
      exact absurd herr (by simp [mkRecord, errTruthy])
  · intro hinv
    have hdisj : ∀ r ∈ rs,
        ¬(400 ≤ r.status_code ∧ errTruthy r.error = true) := by
      intro r hr ⟨h4, herr⟩
      have h0 := hinv r hr herr
      omega
    refine ⟨hdisj, ?_⟩
    cases hEmpty : rs.isEmpty with
    | true =>
      have hrs : rs = [] := List.isEmpty_iff.1 hEmpty
      subst hrs
      norm_num [aggregateEnhanced]
    | false =>
      have hne : rs ≠ [] := by
        cases rs with
        | nil => simp at hEmpty
        | cons a l => simp
      have hllen : 0 < rs.length := List.length_pos.2 hne
      have hsum : (rs.filter (fun r => decide (r.status_code ≠ 0) &&
            decide (400 ≤ r.status_code))).length +
          (rs.filter (fun r => errTruthy r.error)).length ≤ rs.length := by
        apply length_filter_pair_le
        intro r hr hboth
        obtain ⟨hfail, herr⟩ := hboth
        have h4 : 400 ≤ r.status_code := by
          have := of_decide_eq_true (Bool.and_elim_right hfail)
          exact this
        exact hdisj r hr ⟨h4, herr⟩
      have hrate : (aggregateEnhanced rs elapsed d).error_rate =
          (((rs.filter (fun r => decide (r.status_code ≠ 0) &&
              decide (400 ≤ r.status_code))).length : ℚ) +
            ((rs.filter (fun r => errTruthy r.error)).length : ℚ)) /
            (rs.length : ℚ) * 100 := by
        simp only [aggregateEnhanced, hEmpty, Bool.false_eq_true,
          if_false, if_pos hllen]
      rw [hrate]
      set f := (rs.filter (fun r => decide (r.status_code ≠ 0) &&
        decide (400 ≤ r.status_code))).length
      set e := (rs.filter (fun r => errTruthy r.error)).length
      have hle : ((f : ℚ) + (e : ℚ)) ≤ (rs.length : ℚ) := by
        exact_mod_cast hsum
      have hlpos : (0 : ℚ) < (rs.length : ℚ) := by exact_mod_cast hllen
      have hdiv : ((f : ℚ) + (e : ℚ)) / (rs.length : ℚ) ≤ 1 :=
        (div_le_one hlpos).2 hle
      calc ((f : ℚ) + (e : ℚ)) / (rs.length : ℚ) * 100
          ≤ 1 * 100 := by
            apply mul_le_mul_of_nonneg_right hdiv
            norm_num
        _ = 100 := by norm_num

/-- Witness for C10: a two-record collection — one transport error with
status 0 and one HTTP 500 failure — satisfies the invariant; the
buckets are disjoint and the error rate is (1+1)/2·100 = 100, not
more. -/
theorem c10_witness :
    (∀ r ∈ ([⟨0, 0, 0, some "boom"⟩, ⟨1, 500, 2, none⟩] :
        List RespRecord), errTruthy r.error = true → r.status_code = 0) ∧
    (aggregateEnhanced [⟨0, 0, 0, some "boom"⟩, ⟨1, 500, 2, none⟩] 1 1
      ).error_rate ≤ 100 :=
  ⟨by decide,
    ((c10_error_records_disjoint (fun _ => .exn "x") {} 0 0 0 0 0 "m"
      [⟨0, 0, 0, some "boom"⟩, ⟨1, 500, 2, none⟩] 1 1).2.2
      (by decide)).2⟩

end ChakLoad
